import Mathlib

/-!
# Verification of the `final_example.py` interpreter

A shallow embedding of the JSON-encoded S-expression interpreter in
`src/final_example.py`, together with theorems settling the claims about
its scoping machinery, infix parser, RPN evaluator and call protocol.

Modelling conventions:
* Python runtime values (JSON documents, interpreter results, stored
  bindings) are all elements of one type `Obj`: numbers, strings, lists
  and `None`.  Numbers are modelled as rationals: Python's integers are
  exact, and the one operation producing non-integers (`/`, true
  division) is modelled as exact rational division (IEEE-754 rounding of
  Python's `float` is abstracted away; no claim depends on rounding).
  Consequently the `isinstance(x, int)` tests of the source are modelled
  by the `Obj.num` constructor.
* Python exceptions are the constructors of `Err`; evaluation is
  `Except Err`.  Host recursion exhaustion (Python's `RecursionError`)
  is modelled by a fuel parameter and `Err.outOfFuel`.
* The global mutable `SCOPES` dictionary and the two mutable lists of
  `scope_trace` are threaded explicitly as the state `St`.
* The call-tracing decorator (`trace_function`) only writes to an
  external log and returns the wrapped result unchanged; it is not
  modelled (the spec treats it as an external collaborator).
-/

/-- A Python runtime value as used by the interpreter: an `int`/`float`
(modelled as `ℚ`, see the header comment), a `str`, a `list`, or `None`. -/
inductive Obj where
  | num : ℚ → Obj
  | str : String → Obj
  | list : List Obj → Obj
  | none : Obj
deriving Repr

mutual
/-- Python `==` restricted to the values the interpreter manipulates:
structural equality (numbers by numeric equality). -/
def Obj.beq : Obj → Obj → Bool
  | .num a, .num b => decide (a = b)
  | .str a, .str b => decide (a = b)
  | .list a, .list b => Obj.beqList a b
  | .none, .none => true
  | _, _ => false

/-- Elementwise Python `==` on lists. -/
def Obj.beqList : List Obj → List Obj → Bool
  | [], [] => true
  | a :: as, b :: bs => Obj.beq a b && Obj.beqList as bs
  | _, _ => false
end

/-- The Python exceptions the interpreter can raise, plus fuel
exhaustion standing in for the host recursion limit. -/
inductive Err where
  /-- A failing `assert` statement. -/
  | assertionError : Err
  /-- `ValueError: Unknown operation: <op>` (source line 543). -/
  | unknownOperation : String → Err
  /-- `ValueError: Unknown expression` (source line 538). -/
  | unknownExpression : Err
  /-- `ZeroDivisionError` (source line 153). -/
  | zeroDivisionError : Err
  /-- A `TypeError`, e.g. comparing `None` with an int, or the
  subscripted method object `scope_trace_path.append[name]` (line 446). -/
  | typeError : Err
  /-- An `IndexError` from out-of-bounds list indexing. -/
  | indexError : Err
  /-- Host recursion limit (`RecursionError`), modelled as fuel. -/
  | outOfFuel : Err
deriving Repr, DecidableEq

/-- Python truthiness (`bool(x)`) for the values the interpreter
manipulates: `0`, `""`, `[]` and `None` are falsy. -/
def Obj.truthy : Obj → Bool
  | .num q => decide (q ≠ 0)
  | .str s => decide (s ≠ "")
  | .list [] => false
  | .list (_ :: _) => true
  | .none => false

/-- The hierarchical scope store (source: the global `SCOPES` dict):
a finite map from names to pairs `(value, child-scope)`, rendered as an
association list built into the constructors (`cons name value child rest`).
Python dict assignment keeps the position of an existing key; lookups use
the first (unique) occurrence of a key. -/
inductive ScopeDict where
  | nil : ScopeDict
  | cons : String → Obj → ScopeDict → ScopeDict → ScopeDict
deriving Repr

/-- Dictionary key lookup: `d[n]` as an `Option` (source: `n in d.keys()`
and `d[n]`, which yield the `(value, child-scope)` pair). -/
def ScopeDict.find : ScopeDict → String → Option (Obj × ScopeDict)
  | .nil, _ => Option.none
  | .cons m v c rest, n => if m = n then some (v, c) else rest.find n

/-- Dictionary assignment `dest[name] = (value, {})` (source line 442):
overwrites the full entry of an existing key in place — including
replacing its child-scope by a fresh empty dict — or appends a new entry. -/
def ScopeDict.insert : ScopeDict → String → Obj → ScopeDict
  | .nil, n, v => .cons n v .nil .nil
  | .cons m mv mc rest, n, v =>
    if m = n then .cons m v .nil rest
    else .cons m mv mc (rest.insert n v)

/-- The navigation loop plus assignment of `set_in_scope_dict`
(source lines 432-442): walk from the root along `path`, descending into
each segment's child-scope; a missing segment (`KeyError`) breaks the walk
and the assignment happens at the level reached so far. -/
def setWalk (d : ScopeDict) (path : List String) (name : String) (value : Obj) : ScopeDict :=
  match path with
  | [] => d.insert name value
  | level :: rest =>
    match d.find level with
    | Option.none => d.insert name value
    | some (lv, child) => replaceChild d level lv (setWalk child rest name value)
where
  /-- Rebuild the dictionary with `level`'s child-scope replaced (the pure
  rendering of mutating the nested dict in place). -/
  replaceChild : ScopeDict → String → Obj → ScopeDict → ScopeDict
    | .nil, _, _, _ => .nil
    | .cons m mv mc rest, level, lv, newChild =>
      if m = level then .cons m lv newChild rest
      else .cons m mv mc (replaceChild rest level lv newChild)

/-- `get_from_scope_dict`'s search loop (source lines 469-482), with the
running `value` accumulator made explicit: at each present path segment,
descend and re-check `name`, updating the accumulator on a hit; a missing
segment (`KeyError`) breaks the walk and the accumulator is returned. -/
def getWalk (name : String) (path : List String) (scope : ScopeDict)
    (value : Option Obj) : Option Obj :=
  match path with
  | [] => value
  | level :: rest =>
    match scope.find level with
    | Option.none => value
    | some (_, child) =>
      getWalk name rest child
        (match child.find name with
         | some (v, _) => some v
         | Option.none => value)

/-- `get_from_scope_dict(name, execution_scope_trace)` (source lines
449-482): check the root, then walk the path updating the best match;
`Option.none` models the Python `None` returned when the name was never
found. -/
def get_from_scope_dict (name : String) (path : List String) (scopes : ScopeDict) :
    Option Obj :=
  getWalk name path scopes
    (match scopes.find name with
     | some (v, _) => some v
     | Option.none => Option.none)

/-- `check_for_func(arg)` (source lines 486-491): `False` for non-lists;
for a list, unconditionally index element 1 and compare it with the string
`"function"`.  Indexing a list of fewer than two elements raises
`IndexError`. -/
def check_for_func (arg : Obj) : Except Err Bool :=
  match arg with
  | .list l =>
    match l[1]? with
    | Option.none => .error .indexError
    | some e => .ok (Obj.beq e (.str "function"))
  | _ => .ok false

/-- `precedence(op)` (source lines 48-69); Python implicitly returns
`None` for an unrecognized operator, modelled as `Option.none`. -/
def precedence (op : String) : Option Nat :=
  if op = "AND" ∨ op = "OR" ∨ op = "XOR" then some 1
  else if op = "+" ∨ op = "-" then some 2
  else if op = "*" ∨ op = "/" then some 3
  else Option.none

/-- The interpreter state: the global `SCOPES` store together with the
two mutable lists of `scope_trace` (`scope_trace[0]` = `defPath`,
`scope_trace[1]` = `execPath`). -/
structure St where
  scopes : ScopeDict
  defPath : List String
  execPath : List String
deriving Repr

/-- The type of the recursive evaluator `do`, passed to each operation
handler (open recursion; tied by `doE` below). -/
abbrev DoFn := Obj → St → Except Err (Obj × St)

/-- `set_in_scope_dict(name, value, scope_trace_path, is_func)` (source
lines 399-446): assert the name is a string, navigate and assign via
`setWalk`, and in the `is_func` case hit the source's
`scope_trace_path.append[name]` (line 446), which subscripts the bound
method object and raises `TypeError`; the evaluation then aborts, so the
mutated store is no longer observable and is not returned. -/
def set_in_scope_dict (name : Obj) (value : Obj) (path : List String)
    (scopes : ScopeDict) (is_func : Bool) : Except Err (ScopeDict × List String) :=
  match name with
  | .str n =>
    let scopes' := setWalk scopes path n value
    if is_func then .error .typeError
    else .ok (scopes', path)
  | _ => .error .assertionError

/-- `precedence` applied to an arbitrary token, as in
`precedence(arg)` where `arg` may be any object. -/
def precedenceOf : Obj → Option Nat
  | .str s => precedence s
  | _ => Option.none

/-- The token loop of `evaluate_rpn` (source lines 133-168) with the
evaluation stack explicit (head = most recently pushed).  Numbers are
pushed; any other token pops `operand2` then `operand1` (fewer than two
values on the stack is an `IndexError` from `pop`).  The `if`/`elif`
chain of the source: arithmetic on numbers (`+` also concatenates
strings and lists, as Python `+` does), `/` checks the right operand for
zero, `AND`/`OR` coerce truthiness, `XOR` tests plain inequality of the
two operands (source line 167), and a token matching no branch pushes
nothing (the operands stay consumed). -/
def evalRpnGo : List Obj → List Obj → Except Err Obj
  | [], [v] => .ok v
  | [], _ => .error .assertionError
  | .num q :: rest, stack => evalRpnGo rest (.num q :: stack)
  | arg :: rest, stack =>
    match stack with
    | operand2 :: operand1 :: stk =>
      match arg with
      | .str "+" =>
        match operand1, operand2 with
        | .num a, .num b => evalRpnGo rest (.num (a + b) :: stk)
        | .str a, .str b => evalRpnGo rest (.str (a ++ b) :: stk)
        | .list a, .list b => evalRpnGo rest (.list (a ++ b) :: stk)
        | _, _ => .error .typeError
      | .str "-" =>
        match operand1, operand2 with
        | .num a, .num b => evalRpnGo rest (.num (a - b) :: stk)
        | _, _ => .error .typeError
      | .str "*" =>
        match operand1, operand2 with
        | .num a, .num b => evalRpnGo rest (.num (a * b) :: stk)
        | _, _ => .error .typeError
      | .str "/" =>
        match operand1, operand2 with
        | .num a, .num b =>
          if b = 0 then .error .zeroDivisionError
          else evalRpnGo rest (.num (a / b) :: stk)
        | _, _ => .error .typeError
      | .str "AND" =>
        evalRpnGo rest (.num (if operand1.truthy && operand2.truthy then 1 else 0) :: stk)
      | .str "OR" =>
        evalRpnGo rest (.num (if operand1.truthy || operand2.truthy then 1 else 0) :: stk)
      | .str "XOR" =>
        evalRpnGo rest (.num (if Obj.beq operand1 operand2 then 0 else 1) :: stk)
      | _ => evalRpnGo rest stk
    | _ => .error .indexError

/-- `evaluate_rpn(expr)` (source lines 116-170): run the token loop on an
empty stack; exactly one value must remain (`assert len(...) == 1`). -/
def evaluate_rpn (expr : List Obj) : Except Err Obj :=
  evalRpnGo expr []

/-- The scan loop of `parse_infix` (source lines 96-113) with the output
queue and operator stack explicit (stack head = top, matching Python's
`append`/`pop` at the end of the list).  Numbers go to the queue; nested
lists are first evaluated by the recursive evaluator; for any other token
with a non-empty stack, a single top operator of greater-or-equal
precedence is popped to the queue (note: an `elif` with one `pop`, not a
while-loop) before the token is pushed; comparing a precedence with
Python's `None` (unknown operator) raises `TypeError`.  At the end the
remaining stack is drained, top first, onto the queue. -/
def parseGo (doRec : DoFn) : List Obj → List Obj → List Obj → St →
    Except Err (List Obj × St)
  | [], queue, stack, st => .ok (queue ++ stack, st)
  | .num q :: rest, queue, stack, st => parseGo doRec rest (queue ++ [.num q]) stack st
  | .list l :: rest, queue, stack, st => do
    let (v, st1) ← doRec (.list l) st
    parseGo doRec rest (queue ++ [v]) stack st1
  | arg :: rest, queue, stack, st =>
    match stack with
    | top :: stk =>
      match precedenceOf arg, precedenceOf top with
      | some p, some q =>
        if p ≤ q then parseGo doRec rest (queue ++ [top]) (arg :: stk) st
        else parseGo doRec rest queue (arg :: top :: stk) st
      | _, _ => .error .typeError
    | [] => parseGo doRec rest queue (arg :: stack) st

/-- `parse_infix(expr, scope_trace)` (source lines 72-113):
`assert len(expr) >= 3`, then the scan loop. -/
def parseInfix (doRec : DoFn) (expr : List Obj) (st : St) :
    Except Err (List Obj × St) :=
  if expr.length ≥ 3 then parseGo doRec expr [] [] st
  else .error .assertionError

/-- `do_add(args, scope_trace)` (source lines 179-200): two operands,
each evaluated, then Python `+`. -/
def do_add (doRec : DoFn) (args : List Obj) (st : St) : Except Err (Obj × St) :=
  match args with
  | [e1, e2] => do
    let (left, st1) ← doRec e1 st
    let (right, st2) ← doRec e2 st1
    match left, right with
    | .num a, .num b => .ok (.num (a + b), st2)
    | .str a, .str b => .ok (.str (a ++ b), st2)
    | .list a, .list b => .ok (.list (a ++ b), st2)
    | _, _ => .error .typeError
  | _ => .error .assertionError

/-- `do_power(args, scope_trace)` (source lines 204-211): `left ** right`.
Integer exponents are modelled exactly (with Python's `ZeroDivisionError`
on `0 ** negative`); a non-integer exponent would produce an irrational
float and is outside the numeric model. -/
def do_power (doRec : DoFn) (args : List Obj) (st : St) : Except Err (Obj × St) :=
  match args with
  | [e1, e2] => do
    let (left, st1) ← doRec e1 st
    let (right, st2) ← doRec e2 st1
    match left, right with
    | .num a, .num b =>
      if b.den = 1 then
        if a = 0 ∧ b.num < 0 then .error .zeroDivisionError
        else .ok (.num (a ^ b.num), st2)
      else .error .typeError
    | _, _ => .error .typeError
  | _ => .error .assertionError

/-- The loop of `do_seq` (source lines 240-243): evaluate each operand in
order, keeping the last result (initially Python `None`). -/
def seqLoop (doRec : DoFn) : List Obj → Obj → St → Except Err (Obj × St)
  | [], result, st => .ok (result, st)
  | e :: rest, _, st => do
    let (r, st1) ← doRec e st
    seqLoop doRec rest r st1

/-- `do_seq(args, scope_trace)` (source lines 216-243):
`assert len(args) > 0`, then the loop. -/
def do_seq (doRec : DoFn) (args : List Obj) (st : St) : Except Err (Obj × St) :=
  match args with
  | [] => .error .assertionError
  | _ => seqLoop doRec args Obj.none st

/-- `do_set(args, scope_trace)` (source lines 247-278): two arguments,
the first a string; `check_for_func` inspects the *unevaluated* second
argument, the value is then evaluated, and the binding goes through
`set_in_scope_dict` — along `scope_trace[0]` (the definition path) with
`is_func=True` when `check_for_func` returned `True`, along
`scope_trace[1]` (the execution path) otherwise. -/
def do_set (doRec : DoFn) (args : List Obj) (st : St) : Except Err (Obj × St) :=
  match args with
  | [a0, a1] =>
    match a0 with
    | .str var_name => do
      let is_func ← check_for_func a1
      let (value, st1) ← doRec a1 st
      if is_func then do
        let (scopes', defPath') ←
          set_in_scope_dict (.str var_name) value st1.defPath st1.scopes true
        .ok (value, { st1 with scopes := scopes', defPath := defPath' })
      else do
        let (scopes', _) ←
          set_in_scope_dict (.str var_name) value st1.execPath st1.scopes false
        .ok (value, { st1 with scopes := scopes' })
    | _ => .error .assertionError
  | _ => .error .assertionError

/-- `do_get(args, scope_trace)` (source lines 282-303): one string
argument, resolved by `get_from_scope_dict` along the execution path;
a miss at every level yields Python `None`, which is returned as the
value. -/
def do_get (args : List Obj) (st : St) : Except Err (Obj × St) :=
  match args with
  | [a0] =>
    match a0 with
    | .str name =>
      .ok (match get_from_scope_dict name st.execPath st.scopes with
           | some v => v
           | Option.none => Obj.none,
          st)
    | _ => .error .assertionError
  | _ => .error .assertionError

/-- `do_function(args, scope_trace)` (source lines 307-332): package the
parameter list and the unevaluated body as `["function", params, body]`. -/
def do_function (args : List Obj) (st : St) : Except Err (Obj × St) :=
  match args with
  | [parameters, body] => .ok (.list [.str "function", parameters, body], st)
  | _ => .error .assertionError

/-- Python `len` for the sized values involved here (`len` of a number or
`None` raises `TypeError`, modelled as `Option.none`). -/
def pyLen : Obj → Option Nat
  | .str s => some s.length
  | .list l => some l.length
  | _ => Option.none

/-- Iterating a Python value, as `zip(params, ...)` does: the elements of
a list, or the one-character strings of a string.  Other values are
unreachable here because `len` has already been taken. -/
def pyElems : Obj → List Obj
  | .list l => l
  | .str s => s.toList.map (fun c => Obj.str (String.singleton c))
  | _ => []

/-- The parameter-binding loop of `do_call` (source lines 377-378):
`set_in_scope_dict(param, arg, scope_trace[1])` for each zipped pair
(`zip` stops at the shorter list). -/
def bindParams : List Obj → List Obj → List String → ScopeDict →
    Except Err ScopeDict
  | p :: ps, a :: as, path, scopes =>
    match set_in_scope_dict p a path scopes false with
    | .ok (scopes', _) => bindParams ps as path scopes'
    | .error e => .error e
  | _, _, _, scopes => .ok scopes

/-- `do_call(args, scope_trace)` (source lines 336-385): resolve the
callee along the execution path, evaluate the arguments in the caller's
trace, check the arity, bind each parameter at the current execution
path, append the callee's name to the execution path, evaluate the body —
and then (source line 383) append the callee's name *again* instead of
popping it. -/
def do_call (doRec : DoFn) (args : List Obj) (st : St) : Except Err (Obj × St) :=
  match args with
  | [] => .error .assertionError
  | a0 :: argExprs =>
    match a0 with
    | .str func_name => do
      let (arguments, st1) ← evalArgs doRec argExprs st
      match get_from_scope_dict func_name st1.execPath st1.scopes with
      | some (.list funcL) =>
        match funcL with
        | [] => .error .indexError
        | f0 :: _ =>
          match f0 with
          | .str tag =>
            if tag = "function" then
              match funcL[1]?, funcL[2]? with
              | some params, some body =>
                match pyLen params with
                | Option.none => .error .typeError
                | some nparams =>
                  if arguments.length = nparams then do
                    let scopes2 ← bindParams (pyElems params) arguments st1.execPath st1.scopes
                    let st2 : St :=
                      { st1 with scopes := scopes2, execPath := st1.execPath ++ [func_name] }
                    let (result, st3) ← doRec body st2
                    let st4 : St := { st3 with execPath := st3.execPath ++ [func_name] }
                    .ok (result, st4)
                  else .error .assertionError
              | _, _ => .error .indexError
            else .error .assertionError
          | _ => .error .assertionError
      | some _ => .error .assertionError
      | Option.none => .error .assertionError
    | _ => .error .assertionError
where
  /-- The argument list comprehension of `do_call` (source line 364):
  evaluate each argument expression in the caller's current trace. -/
  evalArgs (doRec : DoFn) : List Obj → St → Except Err (List Obj × St)
    | [], st => .ok ([], st)
    | e :: rest, st => do
      let (v, st1) ← doRec e st
      let (vs, st2) ← evalArgs doRec rest st1
      .ok (v :: vs, st2)

/-- The operation table `OPS` (source lines 508-512): the names of the
seven `do_`-prefixed handlers with the prefix stripped. -/
def OPS : List String := ["add", "power", "seq", "set", "get", "function", "call"]

/-- `do(expr, scope_trace)` (source lines 515-553), with a fuel
parameter standing in for the host call-stack budget: numbers return
themselves; non-lists are `Unknown expression`; a list whose first
element is a string dispatches through `OPS` (an absent keyword is
`Unknown operation`); any other list is parsed as infix and evaluated as
RPN. -/
def doE : Nat → Obj → St → Except Err (Obj × St)
  | 0, _, _ => .error .outOfFuel
  | fuel + 1, expr, st =>
    match expr with
    | .num q => .ok (.num q, st)
    | .str _ => .error .unknownExpression
    | .none => .error .unknownExpression
    | .list [] => .error .indexError
    | .list (head :: args) =>
      match head with
      | .str op =>
        if op ∈ OPS then
          if op = "add" then do_add (doE fuel) args st
          else if op = "power" then do_power (doE fuel) args st
          else if op = "seq" then do_seq (doE fuel) args st
          else if op = "set" then do_set (doE fuel) args st
          else if op = "get" then do_get args st
          else if op = "function" then do_function args st
          else do_call (doE fuel) args st
        else .error (.unknownOperation op)
      | _ => do
        let (tokens, st1) ← parseInfix (doE fuel) (head :: args) st
        let v ← evaluate_rpn tokens
        .ok (v, st1)

/-- The scope trace a fresh run starts from (source lines 575-578),
with an empty store. -/
def st0 : St := ⟨ScopeDict.nil, [], []⟩

/-! ## Specification-side descriptions of the lookup rule

The spec describes `lookup(name, path)` as: visit the store root, then
descend along the path one segment at a time (stopping silently at an
absent segment), re-check the name at every visited level, and return
the binding of the deepest visited level where the name is bound.  The
following definitions render those words directly; the refinement
theorem for C3 compares them with `get_from_scope_dict` above. -/

/-- The child scopes the walk descends into: one per present path
segment, stopping (without failing) at the first absent segment. -/
def childChain (d : ScopeDict) : List String → List ScopeDict
  | [] => []
  | level :: rest =>
    match d.find level with
    | Option.none => []
    | some (_, c) => c :: childChain c rest

/-- The levels visited by a lookup: the store root followed by the
descended child scopes. -/
def visitedScopes (d : ScopeDict) (path : List String) : List ScopeDict :=
  d :: childChain d path

/-- The value bound to `name` at one level, if any. -/
def bindingAt (name : String) (s : ScopeDict) : Option Obj :=
  (s.find name).map Prod.fst

/-- The spec's lookup result: the binding at the deepest (last) visited
level where the name is bound. -/
def deepestBinding (name : String) (levels : List ScopeDict) : Option Obj :=
  (levels.filterMap (bindingAt name)).getLast?

/-- Modelled from the spec (the operator rule of §4.2, which the source's
single `elif`-pop deviates from): "while the stack is non-empty and the
top operator's precedence is ≥ the incoming operator's precedence, pop it
to the output queue".  This is the popping loop, returning the popped
operators (top first) and the remaining stack. -/
def popGE (op : String) : List Obj → (List Obj × List Obj)
  | [] => ([], [])
  | .str top :: stk =>
    if (precedence op).getD 0 ≤ (precedence top).getD 0 then
      let (popped, stk') := popGE op stk
      (.str top :: popped, stk')
    else ([], .str top :: stk)
  | other :: stk => ([], other :: stk)

/-- Modelled from the spec (§4.2): the shunting-yard conversion with the
while-loop operator rule, on flat integer/operator token sequences
(nested forms are pre-reduced to values before this rule applies).
Compared against the source's `parse_infix` for claim C2. -/
def shuntingYardSpec : List Obj → List Obj → List Obj → List Obj
  | [], queue, stack => queue ++ stack
  | .num q :: rest, queue, stack => shuntingYardSpec rest (queue ++ [.num q]) stack
  | .str op :: rest, queue, stack =>
    let (popped, stack') := popGE op stack
    shuntingYardSpec rest (queue ++ popped) (.str op :: stack')
  | _ :: rest, queue, stack => shuntingYardSpec rest queue stack

/-! ## Concrete programs used by individual claims -/

/-- Claim C1's program: define a zero-parameter function `f` with body
`0`, then call it.  JSON: `["seq", ["set","f",["function",[],0]], ["call","f"]]`. -/
def progC1 : Obj := .list [.str "seq",
  .list [.str "set", .str "f", .list [.str "function", .list [], .num 0]],
  .list [.str "call", .str "f"]]

/-- Claim C2's infix form mixing the precedence levels twice:
`[10, "-", 2, "*", 3, "-", 1]`, whose left-associative value is
`10 - 2*3 - 1 = 3`. -/
def progC2 : List Obj :=
  [.num 10, .str "-", .num 2, .str "*", .num 3, .str "-", .num 1]

/-- Claim C5's program exactly as the claim writes it, with the keyword
`func`: `["seq", ["set","f",["func",["n"],["get","n"]]], ["call","f",5]]`. -/
def progFunc : Obj := .list [.str "seq",
  .list [.str "set", .str "f",
    .list [.str "func", .list [.str "n"], .list [.str "get", .str "n"]]],
  .list [.str "call", .str "f", .num 5]]

/-- Claim C5's program with the keyword the source actually registers,
`function`, in place of `func`. -/
def progFunction : Obj := .list [.str "seq",
  .list [.str "set", .str "f",
    .list [.str "function", .list [.str "n"], .list [.str "get", .str "n"]]],
  .list [.str "call", .str "f", .num 5]]

/-- Claim C7's `set` form whose right-hand side is a function-valued
form: `["set", "f", ["function", ["n"], ["get", "n"]]]`. -/
def setProgC7 : Obj := .list [.str "set", .str "f",
  .list [.str "function", .list [.str "n"], .list [.str "get", .str "n"]]]

/-- Claim C7's starting state: the store binds `g` at the root and the
definition path is `["g"]` (as after defining a function `g`), while the
execution path is empty — so the definition path and the execution path
lead to different levels. -/
def stG : St := ⟨.cons "g" (.num 0) .nil .nil, ["g"], []⟩

/-- The last element of `found` if there is one, else the accumulator:
the shape of a "latest match wins" scan. -/
def lastOr {α : Type} (found : List α) (acc : Option α) : Option α :=
  match found.getLast? with
  | some w => some w
  | Option.none => acc

theorem lastOr_nil {α : Type} (acc : Option α) : lastOr [] acc = acc := rfl

theorem lastOr_none {α : Type} (L : List α) : lastOr L Option.none = L.getLast? := by
  unfold lastOr
  cases L.getLast? <;> rfl

theorem lastOr_cons {α : Type} (v : α) (M : List α) (acc : Option α) :
    lastOr (v :: M) acc = lastOr M (some v) := by
  cases M with
  | nil => rfl
  | cons m M' =>
    unfold lastOr
    rw [List.getLast?_cons_cons]
    cases h : (m :: M').getLast? with
    | none => exact absurd (List.getLast?_eq_none_iff.mp h) (by simp)
    | some w => rfl

/-- The accumulator form of the search loop computes the last match. -/
theorem getWalk_eq_lastOr (name : String) :
    ∀ (path : List String) (scope : ScopeDict) (acc : Option Obj),
      getWalk name path scope acc =
        lastOr ((childChain scope path).filterMap (bindingAt name)) acc := by
  intro path
  induction path with
  | nil => intro scope acc; rfl
  | cons level rest ih =>
    intro scope acc
    unfold getWalk childChain
    cases h : scope.find level with
    | none => rfl
    | some pr =>
      obtain ⟨lv, child⟩ := pr
      dsimp only
      rw [ih]
      cases hf : child.find name with
      | none => simp [List.filterMap_cons, bindingAt, hf]
      | some pv => simp [List.filterMap_cons, bindingAt, hf, lastOr_cons]

/-- Refinement of the source lookup by the spec's description: the
source's `get_from_scope_dict` returns exactly the binding at the
deepest visited level where the name is bound. -/
theorem get_eq_deepestBinding (name : String) (path : List String) (d : ScopeDict) :
    get_from_scope_dict name path d = deepestBinding name (visitedScopes d path) := by
  unfold get_from_scope_dict visitedScopes deepestBinding
  rw [getWalk_eq_lastOr]
  cases hf : d.find name with
  | none =>
    simp only [List.filterMap_cons, bindingAt, hf, Option.map_none']
    exact lastOr_none _
  | some pv =>
    simp only [List.filterMap_cons, bindingAt, hf, Option.map_some']
    rw [← lastOr_cons pv.1 _ Option.none, lastOr_none]

/-- A flat three-token infix form `[x, op, y]` is parsed (the stack is
empty when the operator arrives, so no precedence comparison happens) and
handed to the RPN evaluator as `[x, y, op]`. -/
theorem doE_infix3 (fuel : Nat) (x y : ℚ) (op : String) (st : St) :
    doE (fuel + 1) (.list [.num x, .str op, .num y]) st =
      (evaluate_rpn [.num x, .num y, .str op]).bind (fun v => .ok (v, st)) := rfl

/-- Python `==` on two numbers is numeric equality. -/
theorem Obj.beq_num (x y : ℚ) :
    Obj.beq (Obj.num x) (Obj.num y) = decide (x = y) := rfl

/-- The RPN evaluator's `XOR` pushes `1` iff the two numeric operands are
unequal (source line 167: `int(bool(operand1 != operand2))`). -/
theorem evaluate_rpn_xor (x y : ℚ) :
    evaluate_rpn [.num x, .num y, .str "XOR"] =
      .ok (.num (if x = y then 0 else 1)) := by
  have h : evaluate_rpn [Obj.num x, Obj.num y, Obj.str "XOR"] =
      Except.ok (Obj.num (if Obj.beq (Obj.num x) (Obj.num y) then (0:ℚ) else 1)) := rfl
  rw [h, Obj.beq_num]
  by_cases hxy : x = y <;> simp [hxy]

/-- Dict assignment binds the name to the value with a fresh empty
child-scope (also when the name was already bound). -/
theorem find_insert (d : ScopeDict) (n : String) (v : Obj) :
    (d.insert n v).find n = some (v, ScopeDict.nil) := by
  induction d with
  | nil => simp [ScopeDict.insert, ScopeDict.find]
  | cons m mv mc rest ihc ihr =>
    by_cases h : m = n
    · subst h; simp [ScopeDict.insert, ScopeDict.find]
    · simp [ScopeDict.insert, ScopeDict.find, h, ihr]

/-- Dict assignment leaves every other name's entry — value and
child-scope — untouched. -/
theorem find_insert_other (d : ScopeDict) (n : String) (v : Obj) (m : String)
    (hm : m ≠ n) :
    (d.insert n v).find m = d.find m := by
  induction d with
  | nil => simp [ScopeDict.insert, ScopeDict.find, Ne.symm hm]
  | cons k kv kc rest ihc ihr =>
    by_cases h : k = n
    · subst h
      simp [ScopeDict.insert, ScopeDict.find, Ne.symm hm]
    · simp [ScopeDict.insert, ScopeDict.find, h, ihr]

/-! ## The claims -/

/-- Claim C1 (code_bug evidence): the claim states that a normally
completing `call` restores the execution path to its pre-call state.  On
the program `["seq", ["set","f",["function",[],0]], ["call","f"]]`, run
from the empty scope trace, the call completes normally with value `0`,
yet the final execution path is `["f","f"]` — `do_call` appended the
callee's name twice (source lines 381 and 383) and never popped it. -/
theorem c1_call_leaves_exec_path_unrestored :
    doE 10 progC1 st0 =
      .ok (.num 0,
        ⟨.cons "f" (.list [.str "function", .list [], .num 0]) .nil .nil, [], ["f", "f"]⟩) ∧
      (["f", "f"] : List String) ≠ [] :=
  ⟨rfl, by decide⟩

/-- Claim C2 (code_bug evidence): the source pops at most one operator
per incoming operator (an `elif`, not the claimed while-loop).  On the
mixed-precedence chain `[10, "-", 2, "*", 3, "-", 1]` the source
evaluates to `5`, while the spec's while-loop shunting-yard
(`shuntingYardSpec`) yields the left-associative postfix order, which
evaluates to `10 - 2*3 - 1 = 3`. -/
theorem c2_single_pop_breaks_mixed_precedence :
    doE 1 (.list progC2) st0 = .ok (.num 5, st0) ∧
      evaluate_rpn (shuntingYardSpec progC2 [] []) = .ok (.num 3) ∧
      (5 : ℚ) ≠ 3 := by
  refine ⟨?_, ?_, by norm_num⟩
  · have h : doE 1 (.list progC2) st0 =
        .ok (.num ((10 : ℚ) - (2 * 3 - 1)), st0) := rfl
    rw [h]
    norm_num
  · have h : evaluate_rpn (shuntingYardSpec progC2 [] []) =
        .ok (.num ((10 : ℚ) - 2 * 3 - 1)) := rfl
    rw [h]
    norm_num

/-- Claim C5 (code_bug evidence): the claim's keyword `func` is not in
the operation table (the handler `do_function` registers as `function`),
so the claim's own example program fails with `Unknown operation: func`;
the same program written with `function` returns `5` as the claim
expects. -/
theorem c5_func_keyword_unrecognized :
    doE 10 progFunc st0 = .error (.unknownOperation "func") ∧
      "func" ∉ OPS ∧
      (doE 10 progFunction st0).toOption.map Prod.fst = some (.num 5) :=
  ⟨rfl, by decide, rfl⟩

/-- Claim C7 (code_bug evidence): `check_for_func` tests element 1 (the
parameter list) instead of element 0 of the right-hand side, so a
function-valued form `["function", ["n"], ["get","n"]]` is *not*
recognized as one; consequently `["set","f",<that form>]`, run with
definition path `["g"]` and empty execution path, binds `f` at the store
root (the execution path) as a sibling of `g` — not beneath `g` on the
definition path — and leaves the definition path unextended. -/
theorem c7_function_form_bound_on_execution_path :
    check_for_func (.list [.str "function", .list [.str "n"], .list [.str "get", .str "n"]]) =
      .ok false ∧
      doE 10 setProgC7 stG =
        .ok (.list [.str "function", .list [.str "n"], .list [.str "get", .str "n"]],
          ⟨.cons "g" (.num 0) .nil
            (.cons "f" (.list [.str "function", .list [.str "n"], .list [.str "get", .str "n"]])
              .nil .nil),
           ["g"], []⟩) :=
  ⟨rfl, rfl⟩

/-- Claim C9 (counterexample): bind `f` at the root, bind `x` beneath
`f`, then re-bind `f` at the root.  Before the re-binding, `x` is found
along the path `["f"]`; after it, `f`'s child-scope has been replaced by
a fresh empty dict and `x` is gone — so a bind *does* discard the
existing child-scope of an already-bound name. -/
theorem c9_counterexample_rebinding_discards_child :
    get_from_scope_dict "x" ["f"]
        (setWalk (setWalk ScopeDict.nil [] "f" (.num 1)) ["f"] "x" (.num 2)) =
      some (.num 2) ∧
      get_from_scope_dict "x" ["f"]
        (setWalk (setWalk (setWalk ScopeDict.nil [] "f" (.num 1)) ["f"] "x" (.num 2))
          [] "f" (.num 3)) = Option.none :=
  ⟨rfl, rfl⟩

/-- Claim C9 (amended): a bind writes `name → (value, {})` at the target
level — re-binding a name resets its child-scope to empty — while the
entries of all *other* names at that level, values and child-scopes
alike, are preserved. -/
theorem c9_amended_insert_resets_own_child_preserves_others
    (d : ScopeDict) (n : String) (v : Obj) (m : String) :
    (d.insert n v).find n = some (v, ScopeDict.nil) ∧
      (m ≠ n → (d.insert n v).find m = d.find m) :=
  ⟨find_insert d n v, fun hm => find_insert_other d n v m hm⟩

/-- Claim C9 witness: the amended statement at a concrete store in which
`a` is bound with a non-empty child-scope and then re-bound. -/
theorem c9_amended_witness :
    ((ScopeDict.cons "a" (.num 1) (.cons "c" (.num 5) .nil .nil) .nil).insert "a"
        (.num 2)).find "a" = some (.num 2, ScopeDict.nil) ∧
      ((ScopeDict.cons "a" (.num 1) (.cons "c" (.num 5) .nil .nil) .nil).insert "a"
        (.num 2)).find "b" =
        (ScopeDict.cons "a" (.num 1) (.cons "c" (.num 5) .nil .nil) .nil).find "b" :=
  ⟨(c9_amended_insert_resets_own_child_preserves_others
      (ScopeDict.cons "a" (.num 1) (.cons "c" (.num 5) .nil .nil) .nil) "a" (.num 2) "b").1,
   (c9_amended_insert_resets_own_child_preserves_others
      (ScopeDict.cons "a" (.num 1) (.cons "c" (.num 5) .nil .nil) .nil) "a" (.num 2) "b").2
     (by decide)⟩

/-- Claim C10: for every `set` form whose right-hand side is a
one-element list, evaluation raises `IndexError` — `do_set` runs
`check_for_func` on the unevaluated operand, which indexes element 1 of
any list unconditionally — before the operand is ever evaluated (the
result does not depend on the operand `e`, the state, or the fuel left
for evaluating `e`). -/
theorem c10_set_singleton_list_rhs_index_error
    (fuel : Nat) (name : String) (e : Obj) (st : St) :
    doE (fuel + 1) (.list [.str "set", .str name, .list [e]]) st =
      .error .indexError := rfl

/-- Binding an `.ok` result into an `Except` continuation. -/
theorem exceptOkBind {α β : Type} (a : α) (f : α → Except Err β) :
    (Except.ok a : Except Err α).bind f = f a := rfl

/-- Claim C3: for every name and every execution path, the source's
lookup walks the path from the store root, descending into each present
segment's child-scope and stopping silently at an absent one, re-checks
the name at every visited level, and returns the binding of the deepest
visited level where the name is bound (`deepestBinding` over
`visitedScopes` is the spec's wording rendered directly). -/
theorem c3_lookup_returns_deepest_visited_binding
    (name : String) (path : List String) (d : ScopeDict) :
    get_from_scope_dict name path d = deepestBinding name (visitedScopes d path) :=
  get_eq_deepestBinding name path d

/-- Claim C4 counterexample: with an empty store and empty execution
path, `["get","x"]` — a name bound at no visited level — completes
normally and returns the Python `None` value instead of signalling any
failure. -/
theorem c4_counterexample_unbound_get_completes :
    doE 1 (.list [.str "get", .str "x"]) st0 = .ok (Obj.none, st0) := rfl

/-- Claim C4 amended: when a name is bound at no level visited along the
execution path (root included), `do_get` completes normally and returns
Python `None` (`Obj.none`); no `NameNotFound` failure is signalled
anywhere in the source. -/
theorem c4_amended_unbound_get_returns_pynone (name : String) (st : St)
    (h : ∀ s ∈ visitedScopes st.scopes st.execPath, s.find name = Option.none) :
    do_get [.str name] st = .ok (Obj.none, st) := by
  have hnil : (visitedScopes st.scopes st.execPath).filterMap (bindingAt name) = [] := by
    rw [List.filterMap_eq_nil_iff]
    intro s hs
    simp [bindingAt, h s hs]
  have hg : get_from_scope_dict name st.execPath st.scopes = Option.none := by
    rw [get_eq_deepestBinding]
    unfold deepestBinding
    rw [hnil]
    rfl
  show Except.ok
      (match get_from_scope_dict name st.execPath st.scopes with
       | some v => v
       | Option.none => Obj.none, st) = Except.ok (Obj.none, st)
  rw [hg]

/-- Claim C4 witness: the amended statement at the empty store. -/
theorem c4_amended_witness :
    (∀ s ∈ visitedScopes st0.scopes st0.execPath, s.find "x" = Option.none) ∧
      do_get [.str "x"] st0 = .ok (Obj.none, st0) := by
  have h : ∀ s ∈ visitedScopes st0.scopes st0.execPath, s.find "x" = Option.none := by
    intro s hs
    have : s = ScopeDict.nil := by simpa [st0, visitedScopes, childChain] using hs
    subst this
    rfl
  exact ⟨h, c4_amended_unbound_get_returns_pynone "x" st0 h⟩

/-- Claim C6 counterexample: `[1, "XOR", 2]` evaluates to `1`, although
both operands coerce to boolean true, so the claim's predicted result
`0` is wrong. -/
theorem c6_counterexample_xor_one_two :
    doE 1 (.list [.num 1, .str "XOR", .num 2]) st0 = .ok (.num 1, st0) ∧
      (1 : ℚ) ≠ 0 :=
  ⟨rfl, by norm_num⟩

/-- Claim C6 amended: for all integer operands, `XOR` (via `parse_infix`
and `evaluate_rpn`) returns `1` iff the two operands are *unequal* —
plain inequality, not difference of boolean coercions (source line 167);
on operands from `{0,1}` the two notions agree. -/
theorem c6_amended_xor_tests_inequality (fuel : Nat) (a b : ℤ) :
    doE (fuel + 1) (.list [.num (a : ℚ), .str "XOR", .num (b : ℚ)]) st0 =
      .ok (.num (if a = b then 0 else 1), st0) := by
  rw [doE_infix3, evaluate_rpn_xor, exceptOkBind]
  by_cases h : a = b
  · simp [h]
  · have h' : (a : ℚ) ≠ (b : ℚ) := by exact_mod_cast h
    simp [h, h']

/-- Claim C8: for all integers `a` and `b` with `b ≠ 0`, the infix forms
`[a,"+",b]`, `[a,"-",b]`, `[a,"*",b]`, `[a,"/",b]` evaluate (via
`parse_infix` then `evaluate_rpn`) to the sum, difference, product and
(exact) quotient, and `[a,"/",0]` fails with the division-by-zero error
rather than returning a value. -/
theorem c8_infix_arithmetic (fuel : Nat) (a b : ℤ) (hb : b ≠ 0) :
    doE (fuel + 1) (.list [.num (a : ℚ), .str "+", .num (b : ℚ)]) st0 =
        .ok (.num ((a : ℚ) + (b : ℚ)), st0) ∧
      doE (fuel + 1) (.list [.num (a : ℚ), .str "-", .num (b : ℚ)]) st0 =
        .ok (.num ((a : ℚ) - (b : ℚ)), st0) ∧
      doE (fuel + 1) (.list [.num (a : ℚ), .str "*", .num (b : ℚ)]) st0 =
        .ok (.num ((a : ℚ) * (b : ℚ)), st0) ∧
      doE (fuel + 1) (.list [.num (a : ℚ), .str "/", .num (b : ℚ)]) st0 =
        .ok (.num ((a : ℚ) / (b : ℚ)), st0) ∧
      doE (fuel + 1) (.list [.num (a : ℚ), .str "/", .num 0]) st0 =
        .error .zeroDivisionError := by
  have hb' : (b : ℚ) ≠ 0 := Int.cast_ne_zero.mpr hb
  refine ⟨rfl, rfl, rfl, ?_, ?_⟩
  · rw [doE_infix3]
    have h : evaluate_rpn [Obj.num (a : ℚ), Obj.num (b : ℚ), Obj.str "/"] =
        if (b : ℚ) = 0 then .error .zeroDivisionError
        else .ok (.num ((a : ℚ) / (b : ℚ))) := rfl
    rw [h, if_neg hb']
    rfl
  · rw [doE_infix3]
    have h : evaluate_rpn [Obj.num (a : ℚ), Obj.num (0 : ℚ), Obj.str "/"] =
        if (0 : ℚ) = 0 then .error .zeroDivisionError
        else .ok (.num ((a : ℚ) / (0 : ℚ))) := rfl
    rw [h, if_pos rfl]
    rfl

/-- Claim C8 witness: the theorem applied at `a = 7`, `b = 2`. -/
theorem c8_infix_arithmetic_witness :
    ((2 : ℤ) ≠ 0) ∧
      (doE 1 (.list [.num ((7 : ℤ) : ℚ), .str "+", .num ((2 : ℤ) : ℚ)]) st0 =
          .ok (.num (((7 : ℤ) : ℚ) + ((2 : ℤ) : ℚ)), st0) ∧
        doE 1 (.list [.num ((7 : ℤ) : ℚ), .str "-", .num ((2 : ℤ) : ℚ)]) st0 =
          .ok (.num (((7 : ℤ) : ℚ) - ((2 : ℤ) : ℚ)), st0) ∧
        doE 1 (.list [.num ((7 : ℤ) : ℚ), .str "*", .num ((2 : ℤ) : ℚ)]) st0 =
          .ok (.num (((7 : ℤ) : ℚ) * ((2 : ℤ) : ℚ)), st0) ∧
        doE 1 (.list [.num ((7 : ℤ) : ℚ), .str "/", .num ((2 : ℤ) : ℚ)]) st0 =
          .ok (.num (((7 : ℤ) : ℚ) / ((2 : ℤ) : ℚ)), st0) ∧
        doE 1 (.list [.num ((7 : ℤ) : ℚ), .str "/", .num 0]) st0 =
          .error .zeroDivisionError) :=
  ⟨by norm_num, c8_infix_arithmetic 0 7 2 (by norm_num)⟩
